import Mathlib

/-!
Shallow embedding of `litecord/pubsub/lazy_guild.py` (the lazy member-list
engine).  Python dictionaries are modelled as association lists preserving
insertion order, machine integers as `Nat`/`Int`, and fallible code (dict
indexing, list removal, dynamic-type errors) as `Except String`.  External
collaborators (storage, presence manager, permission evaluator, session
registry) are passed in as function parameters, mirroring the values the
awaited calls would return.
-/

/-- Modelled from the spec: the module `litecord.permissions` is not under
`src/`; the lazy-guild code consumes only the `read_messages` bit of a
permission set (`perms.bits.read_messages`), so a permission value is
modelled by that single bit. -/
structure Permissions where
  read_messages : Bool
deriving DecidableEq

/-- Opaque channel-overwrite payload: the lazy-guild module only stores these
and hands them to the permission mixer, never inspecting them itself. -/
abbrev Overwrite := Nat

/-- A group id is either a role id (Python `int`) or one of the synthetic
string tags `online` / `offline` (`GroupID = Union[int, str]`). -/
inductive GroupID
  | role (rid : Nat)
  | online
  | offline
deriving DecidableEq

/-- Python `str(gid)`. -/
def strG : GroupID → String
  | .role n => toString n
  | .online => "online"
  | .offline => "offline"

/-- Python truthiness of a `GroupID` value (`int` 0 and empty strings are
falsy; the synthetic tags are non-empty strings). -/
def gidTruthy : GroupID → Bool
  | .role n => n != 0
  | .online => true
  | .offline => true

/-- `GroupInfo` dataclass. -/
structure GroupInfo where
  gid : GroupID
  name : String
  position : Nat
  permissions : Permissions
deriving DecidableEq

structure User where
  id : Nat
  username : String
deriving DecidableEq

/-- A stored presence (`{user, status, roles, game, activities}`). -/
structure Presence where
  user : User
  status : String
  roles : List Nat
  game : Option String
  activities : List String
deriving DecidableEq

/-- A member snapshot (`{user, nick, ...}`) as stored in `list.members`. -/
structure Member where
  user : User
  nick : Option String
deriving DecidableEq

/-- A partial presence handed to `pres_update`; `none` models an absent key.
Only the keys the handler reads (`nick`, `roles`, `status`) are modelled. -/
structure PresencePatch where
  nick : Option String
  roles : Option (List Nat)
  status : Option String
deriving DecidableEq

/-- Result of `merge(member, presence)`: the member snapshot overlaid with a
compact presence object under the `presence` key. -/
structure MemberItemView where
  user : User
  nick : Option String
  presence_user_id : String
  presence_status : String
  presence_game : Option String
  presence_activities : List String
deriving DecidableEq

/-- `merge(member, presence)` from the source. -/
def merge (m : Member) (p : Presence) : MemberItemView :=
  { user := m.user
    nick := m.nick
    presence_user_id := toString m.user.id
    presence_status := p.status
    presence_game := p.game
    presence_activities := p.activities }

/-- An entry of the flattened item sequence: a group header
`{group: {id, count}}` or a member item `{member: merge(...)}`. -/
inductive Item
  | group (id : String) (count : Nat)
  | member (view : MemberItemView)
deriving DecidableEq

/-- Replace-or-append update of an insertion-ordered association list
(Python `d[k] = v`). -/
def aset {κ β : Type} [BEq κ] : List (κ × β) → κ → β → List (κ × β)
  | [], k, v => [(k, v)]
  | (k', v') :: rest, k, v =>
    if k' == k then (k, v) :: rest else (k', v') :: aset rest k v

/-- Remove a key from an association list (Python `d.pop(k)` succeeding). -/
def aerase {κ β : Type} [BEq κ] : List (κ × β) → κ → List (κ × β)
  | [], _ => []
  | (k, v) :: rest, k0 => if k == k0 then rest else (k, v) :: aerase rest k0

/-- First index whose element satisfies the predicate.

Modelled from the spec: `litecord.utils.index_by_func` is not under `src/`;
`role_delete` uses it to "remove the group from `groups`", i.e. to find the
first index whose group matches the role id. -/
def indexByFunc {α : Type} (p : α → Bool) : List α → Option Nat
  | [] => none
  | x :: rest => if p x then some 0 else (indexByFunc p rest).map (· + 1)

/-- Python `list.index` (first occurrence) returning `none` instead of
raising `ValueError`. -/
def idxOfNat (x : Nat) : List Nat → Option Nat
  | [] => none
  | y :: rest => if y == x then some 0 else (idxOfNat x rest).map (· + 1)

/-- The `MemberList` dataclass: groups, per-group member-id lists, member
snapshots, presences and cached channel overwrites. -/
structure MemberList where
  groups : List GroupInfo
  data : List (GroupID × List Nat)
  presences : List (Nat × Presence)
  members : List (Nat × Member)
  overwrites : List (Nat × Overwrite)
deriving DecidableEq

/-- `MemberList.__bool__`: initialized iff `groups`, `data`, `presences` and
`members` are all non-empty (overwrites ignored). -/
def listTruthy (l : MemberList) : Bool :=
  !l.groups.isEmpty && !l.data.isEmpty && !l.presences.isEmpty && !l.members.isEmpty

/-- `get_member_as_item`: look up the snapshot and presence and merge them. -/
def memberAsItem (l : MemberList) (mid : Nat) : Except String Item :=
  match List.lookup mid l.members with
  | none => .error "KeyError: members"
  | some m =>
    match List.lookup mid l.presences with
    | none => .error "KeyError: presences"
    | some p => .ok (Item.member (merge m p))

def memberItems (l : MemberList) : List Nat → Except String (List Item)
  | [] => .ok []
  | mid :: rest =>
    match memberAsItem l mid with
    | .error e => .error e
    | .ok it =>
      match memberItems l rest with
      | .error e => .error e
      | .ok xs => .ok (it :: xs)

/-- Body of the `items` property: iterate `self.list` (all groups, in order),
skip every group whose member list is empty (the source has no special case
for `offline` here), and emit a header followed by the member items. -/
def itemsOfGroups (l : MemberList) : List GroupInfo → Except String (List Item)
  | [] => .ok []
  | gr :: rest =>
    match List.lookup gr.gid l.data with
    | none => .error "KeyError: data"
    | some mids =>
      if mids.isEmpty then itemsOfGroups l rest
      else
        match memberItems l mids with
        | .error e => .error e
        | .ok mitems =>
          match itemsOfGroups l rest with
          | .error e => .error e
          | .ok restItems =>
            .ok (Item.group (strG gr.gid) mids.length :: mitems ++ restItems)

/-- The `items` property: `[]` for an untruthy list, otherwise the flattening
of all groups with non-empty member lists. -/
def itemsE (l : MemberList) : Except String (List Item) :=
  if listTruthy l = false then .ok [] else itemsOfGroups l l.groups

/-- `iter_non_empty`: yield every group with its member list, skipping empty
groups except `offline`, which is always yielded. -/
def iterNonEmptyGo (l : MemberList) : List GroupInfo → Except String (List (GroupInfo × List Nat))
  | [] => .ok []
  | gr :: rest =>
    match List.lookup gr.gid l.data with
    | none => .error "KeyError: data"
    | some mids =>
      match iterNonEmptyGo l rest with
      | .error e => .error e
      | .ok xs =>
        .ok (if gr.gid != GroupID.offline && mids.isEmpty then xs else (gr, mids) :: xs)

/-- `groups_complete`: `(group, count)` pairs over `iter_non_empty`. -/
def groupsCompleteE (l : MemberList) : Except String (List (GroupInfo × Nat)) :=
  (iterNonEmptyGo l l.groups).map (List.map fun x => (x.1, x.2.length))

/-- `get_item_index`: starting at index 1, walk `iter_non_empty` and return
the flattened index of the member, or `none`. -/
def getItemIndexGo (l : MemberList) (uid : Nat) : Nat → List GroupInfo → Except String (Option Nat)
  | _, [] => .ok none
  | idx, gr :: rest =>
    match List.lookup gr.gid l.data with
    | none => .error "KeyError: data"
    | some mids =>
      if gr.gid != GroupID.offline && mids.isEmpty then getItemIndexGo l uid idx rest
      else
        match idxOfNat uid mids with
        | some r => .ok (some (idx + r))
        | none => getItemIndexGo l uid (idx + 1 + mids.length) rest

def getItemIndexE (l : MemberList) (uid : Nat) : Except String (Option Nat) :=
  getItemIndexGo l uid 1 l.groups

/-- `get_group_item_index`: starting at index 0, walk `groups_complete` and
return the flattened index of the group header, or `none`. -/
def getGroupItemIndexGo (l : MemberList) (gid0 : GroupID) : Nat → List GroupInfo → Except String (Option Nat)
  | _, [] => .ok none
  | idx, gr :: rest =>
    match List.lookup gr.gid l.data with
    | none => .error "KeyError: data"
    | some mids =>
      if gr.gid != GroupID.offline && mids.isEmpty then getGroupItemIndexGo l gid0 idx rest
      else if gr.gid == gid0 then .ok (some idx)
      else getGroupItemIndexGo l gid0 (idx + 1 + mids.length) rest

def getGroupItemIndexE (l : MemberList) (gid0 : GroupID) : Except String (Option Nat) :=
  getGroupItemIndexGo l gid0 0 l.groups

/-- Inclusive index ranges a session has subscribed to.  The source stores a
Python `set`; it is modelled as an insertion-ordered duplicate-free list. -/
abbrev Ranges := List (Int × Int)

/-- The per-list subscription table `self.state` (session id to range set).
The source uses a `defaultdict(set)`; reads of missing keys are modelled as
the empty range list. -/
abbrev Subs := List (String × Ranges)

def subRanges (subs : Subs) (sid : String) : Ranges :=
  (List.lookup sid subs).getD []

/-- `self.state[session_id].add((start, end))`: set-insert one range,
creating the session's entry on first access. -/
def addRange : Subs → String → (Int × Int) → Subs
  | [], sid, r => [(sid, [r])]
  | (s, rs) :: rest, sid, r =>
    if s == sid then (s, if rs.contains r then rs else rs ++ [r]) :: rest
    else (s, rs) :: addRange rest sid r

/-- A value flowing into an item-index position.  Python is dynamically
typed: the source passes genuine `int`s, `None` (a missed index), and — in
`role_pos_update` line 976, where the parentheses of the call are missing —
the bound method `self.get_group_item_index` itself.  Comparing `None` or a
method against an `int` raises `TypeError`. -/
inductive PyIdx
  | int (i : Int)
  | nil
  | method
deriving DecidableEq

def pyOfOptNat : Option Nat → PyIdx
  | some i => .int i
  | none => .nil

/-- One evaluation of `range_start <= item_index <= range_end`. -/
def rangeHit : (Int × Int) → PyIdx → Except String Bool
  | (lo, hi), .int i => .ok (decide (lo ≤ i && i ≤ hi : Bool))
  | _, .nil => .error "TypeError: int and NoneType are not orderable"
  | _, .method => .error "TypeError: int and method are not orderable"

/-- `state_is_subbed` body: whether any subscribed range covers the index. -/
def anyHit (v : PyIdx) : Ranges → Except String Bool
  | [] => .ok false
  | r :: rest =>
    match rangeHit r v with
    | .error e => .error e
    | .ok true => .ok true
    | .ok false => anyHit v rest

/-- `get_subs`: the session ids (in table order) whose ranges cover the given
index, forcing the `filter` as the source does with `list(...)`. -/
def getSubsGo (subs : Subs) (v : PyIdx) : List String → Except String (List String)
  | [] => .ok []
  | sid :: rest =>
    match anyHit v (subRanges subs sid) with
    | .error e => .error e
    | .ok b =>
      match getSubsGo subs v rest with
      | .error e => .error e
      | .ok xs => .ok (if b then sid :: xs else xs)

def getSubsE (subs : Subs) (v : PyIdx) : Except String (List String) :=
  getSubsGo subs v (subs.map Prod.fst)

/-- An `Operation` value as shaped by `Operation.to_dict`: the five list
operators with exactly the keys the source serializes for each. -/
inductive Operation
  | sync (range : Int × Int) (items : List Item)
  | invalidate (range : Int × Int)
  | insert (index : Int) (item : Item)
  | update (index : Int) (item : Item)
  | delete (index : Int)
deriving DecidableEq

/-- Payload of one `GUILD_MEMBER_LIST_UPDATE` event. -/
structure Payload where
  id : String
  guild_id : String
  groups : List (String × Nat)
  ops : List Operation
deriving DecidableEq

/-- An observable action of a handler: a payload delivered to sessions via
the session registry, or a background `shard_query` task scheduled by
`resync` for one session and range. -/
inductive Effect
  | dispatch (sessions : List String) (payload : Payload)
  | task (session : String) (range : Int × Int)
deriving DecidableEq

def Effect.isTask : Effect → Bool
  | .task _ _ => true
  | .dispatch _ _ => false

/-- First subscribed range of a session bracketing the index
(`next(...)` over the range set, `StopIteration` as `none`). -/
def firstHit (v : PyIdx) : Ranges → Except String (Option (Int × Int))
  | [] => .ok none
  | r :: rest =>
    match rangeHit r v with
    | .error e => .error e
    | .ok true => .ok (some r)
    | .ok false => firstHit v rest

/-- `resync(session_ids, item_index)`: per session, find the covering range
and schedule a background `shard_query` over it; sessions with no covering
range are skipped.  Returns the resynced session ids and the spawned tasks. -/
def resyncGo (subs : Subs) (v : PyIdx) : List String → Except String (List String × List Effect)
  | [] => .ok ([], [])
  | sid :: rest =>
    match firstHit v (subRanges subs sid) with
    | .error e => .error e
    | .ok none => resyncGo subs v rest
    | .ok (some r) =>
      match resyncGo subs v rest with
      | .error e => .error e
      | .ok (ids, effs) => .ok (sid :: ids, Effect.task sid r :: effs)

def resyncE (subs : Subs) (sessionIds : List String) (v : PyIdx) :
    Except String (List String × List Effect) :=
  resyncGo subs v sessionIds

/-- `resync_by_item`: `resync(get_subs(i), i)`. -/
def resyncByItemE (subs : Subs) (v : PyIdx) : Except String (List String × List Effect) :=
  match getSubsE subs v with
  | .error e => .error e
  | .ok sids => resyncGo subs v sids

/-- Per-channel `GuildMemberList` state: ids, the member list, and the
subscription table `self.state`. -/
structure GML where
  guild_id : Nat
  channel_id : Nat
  list : MemberList
  subs : Subs
deriving DecidableEq

/-- The `list_id` property. -/
def listId (g : GML) : String :=
  if g.channel_id == g.guild_id then "everyone" else toString g.channel_id

/-- Python list-slice index clamping: negative indices count from the end,
and both ends clamp into `[0, n]`. -/
def pyClampIdx (n : Nat) (i : Int) : Nat :=
  if i < 0 then (i + n).toNat else min i.toNat n

/-- Python `l[s:e]` (step 1): the elements from the clamped start up to but
excluding the clamped end. -/
def pySlice {α : Type} (s e : Int) (l : List α) : List α :=
  let a := pyClampIdx l.length s
  let b := pyClampIdx l.length e
  (l.drop a).take (b - a)

/-- The SYNC operations built by the `shard_query` range loop: one per range
with `end - start >= 0`, slicing `self.items[start:end]`.  (`self.items` is a
pure property of the unchanged list, so it is evaluated once here.) -/
def shardOps (its : List Item) : List (Int × Int) → List Operation
  | [] => []
  | (s, e) :: rest =>
    if e - s < 0 then shardOps its rest
    else Operation.sync (s, e) (pySlice s e its) :: shardOps its rest

/-- The subscription-table updates of the `shard_query` range loop: every
valid range is added to the session's range set. -/
def shardSubs (sid : String) : Subs → List (Int × Int) → Subs
  | subs, [] => subs
  | subs, (s, e) :: rest =>
    if e - s < 0 then shardSubs sid subs rest
    else shardSubs sid (addRange subs sid (s, e)) rest

/-- Payload assembled by `_dispatch_sess`: list id, guild id, the groups from
`groups_complete`, and the given operations. -/
def mkPayloadE (g : GML) (ops : List Operation) : Except String Payload :=
  match groupsCompleteE g.list with
  | .error e => .error e
  | .ok gc =>
    .ok { id := listId g
          guild_id := toString g.guild_id
          groups := gc.map (fun x => (strG x.1.gid, x.2))
          ops := ops }

/-- Core of `shard_query` for the list that ends up handling the call.  The
source first delegates to the guild's `everyone` list when the `@everyone`
role can read the channel, and lazily initializes an untruthy list from the
storage and presence collaborators; both steps depend on external state, so
the embedding covers the handling list once initialized (untruthy lists are
reported as an error).  `fetch` models the session-registry lookup
`fetch_raw` used by `_dispatch_sess`. -/
def shardQueryCore (fetch : String → Bool) (g : GML) (sid : String)
    (ranges : List (Int × Int)) :
    Except String (GML × Payload × List String × List Effect) :=
  if listTruthy g.list = false then .error "uninitialized list"
  else
    match itemsE g.list with
    | .error e => .error e
    | .ok its =>
      match groupsCompleteE g.list with
      | .error e => .error e
      | .ok gc =>
        let ops := shardOps its ranges
        let subs2 := shardSubs sid g.subs ranges
        let payload : Payload :=
          { id := listId g
            guild_id := toString g.guild_id
            groups := gc.map (fun x => (strG x.1.gid, x.2))
            ops := ops }
        let dispatched := if fetch sid then [sid] else []
        .ok ({ g with subs := subs2 }, payload, dispatched,
             [Effect.dispatch dispatched payload])

/-- Python `nickname or username` (`None` and the empty string fall back). -/
def pyOrName : Option String → String → String
  | some n, u => if n == "" then u else n
  | none, u => u

/-- The `display_name` method used as the sort key.  The source checks
`if not member_id` (a slip for `if not member`), so member id 0 yields the
key `None`; a missing member then raises when subscripted. -/
def displayKeyE (l : MemberList) (mid : Nat) : Except String (Option String) :=
  if mid == 0 then .ok none
  else
    match List.lookup mid l.members with
    | none => .error "TypeError: NoneType is not subscriptable"
    | some m => .ok (some (pyOrName m.nick m.user.username))

def displayKeysE (l : MemberList) : List Nat → Except String (List (Nat × Option String))
  | [] => .ok []
  | mid :: rest =>
    match displayKeyE l mid with
    | .error e => .error e
    | .ok k =>
      match displayKeysE l rest with
      | .error e => .error e
      | .ok ks => .ok ((mid, k) :: ks)

/-- String comparison used by the sort (ascending). -/
def strLe (a b : String) : Bool := !(compare a b == Ordering.gt)

/-- One `member_ids.sort(key=self.display_name)`: a stable ascending sort by
display name.  A `None` key (member id 0) cannot be ordered against strings,
which Python reports as a `TypeError` as soon as a comparison runs (lists of
length at most one are never compared). -/
def sortOneE (l : MemberList) (mids : List Nat) : Except String (List Nat) :=
  match displayKeysE l mids with
  | .error e => .error e
  | .ok keyed =>
    if mids.length ≤ 1 then .ok mids
    else if keyed.any (fun x => x.2.isNone) then
      .error "TypeError: str and NoneType are not orderable"
    else
      .ok ((keyed.mergeSort (fun a b => strLe (a.2.getD "") (b.2.getD ""))).map Prod.fst)

def sortDataE (l : MemberList) : List (GroupID × List Nat) → Except String (List (GroupID × List Nat))
  | [] => .ok []
  | (k, mids) :: rest =>
    match sortOneE l mids with
    | .error e => .error e
    | .ok sorted =>
      match sortDataE l rest with
      | .error e => .error e
      | .ok srest => .ok ((k, sorted) :: srest)

/-- `_sort_groups`: sort every group's member-id list in place. -/
def sortGroupsE (l : MemberList) : Except String MemberList :=
  match sortDataE l l.data with
  | .error e => .error e
  | .ok d => .ok { l with data := d }

/-- `_calc_member_group`: the first group (in list order) whose gid is among
the member's roles, else the simple group for the status. -/
def calcMemberGroup (groups : List GroupInfo) (roles : List Nat) (status : String) : GroupID :=
  match groups.find? (fun gr =>
    match gr.gid with
    | GroupID.role n => roles.contains n
    | _ => false) with
  | some gr => gr.gid
  | none => if status == "offline" then GroupID.offline else GroupID.online

/-- `get_group_for_member`: `None` without `read_messages` on the channel
(the member-permission evaluation is an external collaborator, passed in as
`mperms`), the `offline` group for offline members, else the calculated
group. -/
def getGroupForMember (mperms : Nat → Permissions) (groups : List GroupInfo)
    (uid : Nat) (roles : List Nat) (status : String) : Option GroupID :=
  if (mperms uid).read_messages = false then none
  else if status == "offline" then some GroupID.offline
  else some (calcMemberGroup groups roles status)

/-- The `pres_update` scan locating the member's current group: iterate all
groups in order and return the first whose member list contains the user,
with the relative index. -/
def findOldGroupGo (l : MemberList) (uid : Nat) : List GroupInfo → Except String (Option (GroupID × Nat))
  | [] => .ok none
  | gr :: rest =>
    match List.lookup gr.gid l.data with
    | none => .error "KeyError: data"
    | some mids =>
      match idxOfNat uid mids with
      | some i => .ok (some (gr.gid, i))
      | none => findOldGroupGo l uid rest

/-- `presences[uid].update(partial_presence)` after `nick` was popped: the
given keys overwrite the stored presence. -/
def updatePresenceFields (p : Presence) (patch : PresencePatch) : Presence :=
  { p with status := patch.status.getD p.status, roles := patch.roles.getD p.roles }

/-- `_pres_update_simple`: a single `UPDATE {index, item}` dispatched to the
sessions whose ranges cover the member's flattened index (or an empty result
when the index cannot be found). -/
def presUpdateSimpleE (fetch : String → Bool) (g : GML) (uid : Nat) :
    Except String (GML × List String × List Effect) :=
  match getItemIndexE g.list uid with
  | .error e => .error e
  | .ok none => .ok (g, [], [])
  | .ok (some i) =>
    match itemsE g.list with
    | .error e => .error e
    | .ok its =>
      match its.get? i with
      | none => .error "IndexError: items"
      | some item =>
        match getSubsE g.subs (.int i) with
        | .error e => .error e
        | .ok sids =>
          match mkPayloadE g [Operation.update i item] with
          | .error e => .error e
          | .ok payload =>
            let dispatched := sids.filter fetch
            .ok (g, dispatched, [Effect.dispatch dispatched payload])

/-- `_pres_update_complex`: move the member between groups, resort, and
resync the sessions covering the old and new flattened indices.  The
`DELETE`/`INSERT` operation list the source assembles here is never
dispatched (the dispatch call is commented out in favour of the mass-SYNC
resync), so only the expressions of its construction that can raise —
`self.items[new_user_index]` and the group-index lookups — are retained. -/
def presUpdateComplexMove (g : GML) (uid : Nat) (oldG : GroupID) (newG : Option GroupID) :
    Except String (MemberList × Option Nat × Nat) :=
  match getItemIndexE g.list uid with
  | .error e => .error e
  | .ok oldUserIdxO =>
    match getGroupItemIndexE g.list oldG with
    | .error e => .error e
    | .ok _oldGroupIdxO =>
      match List.lookup oldG g.list.data with
      | none => .error "KeyError: data old group"
      | some oldMids =>
        if (idxOfNat uid oldMids).isNone then .error "ValueError: list.remove"
        else
          let l1 := { g.list with data := aset g.list.data oldG (oldMids.erase uid) }
          match newG with
          | none => .error "KeyError: data None"
          | some ng =>
            match List.lookup ng l1.data with
            | none => .error "KeyError: data new group"
            | some newMids =>
              let l2 := { l1 with data := aset l1.data ng (newMids ++ [uid]) }
              match sortGroupsE l2 with
              | .error e => .error e
              | .ok l3 =>
                match getItemIndexE l3 uid with
                | .error e => .error e
                | .ok none => .error "TypeError: list index must be int, not NoneType"
                | .ok (some newUserIdx) =>
                  match itemsE l3 with
                  | .error e => .error e
                  | .ok its3 =>
                    match its3.get? newUserIdx with
                    | none => .error "IndexError: items"
                    | some _ =>
                      match (if ((List.lookup ng l3.data).getD []).length == 1
                               && ng != GroupID.offline then
                               getGroupItemIndexE l3 ng
                             else .ok none) with
                      | .error e => .error e
                      | .ok _ => .ok (l3, oldUserIdxO, newUserIdx)

def presUpdateComplexE (g : GML) (uid : Nat) (oldG : GroupID) (newG : Option GroupID) :
    Except String (GML × List String × List Effect) :=
  match presUpdateComplexMove g uid oldG newG with
  | .error e => .error e
  | .ok (l3, oldUserIdxO, newUserIdx) =>
    match getSubsE g.subs (pyOfOptNat oldUserIdxO) with
    | .error e => .error e
    | .ok oldSids =>
      match getSubsE g.subs (.int newUserIdx) with
      | .error e => .error e
      | .ok newSids =>
        match resyncE g.subs oldSids (pyOfOptNat oldUserIdxO) with
        | .error e => .error e
        | .ok (ids1, effs1) =>
          match resyncE g.subs newSids (.int newUserIdx) with
          | .error e => .error e
          | .ok (ids2, effs2) =>
            .ok ({ g with list := l3 }, ids1 ++ ids2, effs1 ++ effs2)

/-- `pres_update`: look up the stored presence (a `KeyError` when absent),
pop `nick` from the caller's partial presence, locate the old group, resolve
the new group, store the merged presence, and take the simple path only when
the group is unchanged and no `nick` key was present.  The first component
is the caller's partial-presence dictionary as observable afterwards.  The
source's `_init_check` would lazily initialize an untruthy list from
external collaborators; that is reported as an error here. -/
def presUpdateE (mperms : Nat → Permissions) (fetch : String → Bool)
    (g : GML) (uid : Nat) (patch : PresencePatch) :
    PresencePatch × Except String (GML × List String × List Effect) :=
  if listTruthy g.list = false then (patch, .error "uninitialized list")
  else
    match List.lookup uid g.list.presences with
    | none => (patch, .error "KeyError: presences")
    | some oldPres =>
      let hasNick := patch.nick.isSome
      let patch2 := { patch with nick := none }
      (patch2,
        match findOldGroupGo g.list uid g.list.groups with
        | .error e => .error e
        | .ok none => .ok (g, [], [])
        | .ok (some (oldG, _relIdx)) =>
          if gidTruthy oldG = false then .ok (g, [], [])
          else
            let roles := patch2.roles.getD oldPres.roles
            let status := patch2.status.getD oldPres.status
            let newG := getGroupForMember mperms g.list.groups uid roles status
            let g1 := { g with list :=
              { g.list with presences := aset g.list.presences uid (updatePresenceFields oldPres patch2) } }
            if (some oldG == newG) && !hasNick then presUpdateSimpleE fetch g1 uid
            else presUpdateComplexE g1 uid oldG newG)

/-- `_can_read_chan`: mix the group's permissions with the channel overwrite
(the mixer `overwrite_find_mix` lives in the external permissions module and
is passed in as `mix`), replace the group's permissions with the mixed
result, and report the `read_messages` bit. -/
def canReadChan (mix : Permissions → List (Nat × Overwrite) → GroupID → Permissions)
    (overwrites : List (Nat × Overwrite)) (gr : GroupInfo) : GroupInfo × Bool :=
  let mixed := mix gr.permissions overwrites gr.gid
  ({ gr with permissions := mixed }, mixed.read_messages)

/-- Python `list.insert(i, x)` for a non-negative index: insert before
position `i`, appending when `i` exceeds the length. -/
def pyInsert {α : Type} (i : Nat) (x : α) (l : List α) : List α :=
  l.take i ++ x :: l.drop i

/-- `new_role(role)`: no-op on an untruthy list; refresh the overwrites with
the freshly fetched ones (`fetchedOverwrites` models `chan_overwrites`);
drop the candidate group when its mixed permissions lack `read_messages`;
otherwise insert it into `groups` at list index `role['position']` and give
it an empty `data` entry. -/
def newRole (mix : Permissions → List (Nat × Overwrite) → GroupID → Permissions)
    (fetchedOverwrites : List (Nat × Overwrite))
    (g : GML) (roleId : Nat) (roleName : String) (rolePos : Nat)
    (rolePerms : Permissions) : GML :=
  if listTruthy g.list = false then g
  else
    let candidate : GroupInfo :=
      { gid := GroupID.role roleId, name := roleName, position := rolePos,
        permissions := rolePerms }
    let l1 := { g.list with overwrites := fetchedOverwrites }
    let mixed := canReadChan mix l1.overwrites candidate
    if mixed.2 = false then { g with list := l1 }
    else
      { g with list :=
        { l1 with
          groups := pyInsert rolePos mixed.1 l1.groups
          data := aset l1.data (GroupID.role roleId) [] } }

/-- `_get_role_as_group_idx`: `none` for an untruthy list or a role that is
not a current group. -/
def getRoleAsGroupIdx (l : MemberList) (rid : Nat) : Option Nat :=
  if listTruthy l = false then none
  else indexByFunc (fun gr => gr.gid == GroupID.role rid) l.groups

def setPosAt (gs : List GroupInfo) (i : Nat) (p : Nat) : List GroupInfo :=
  match gs.get? i with
  | none => gs
  | some gr => gs.set i { gr with position := p }

/-- `role_pos_update(role)`: the source's line 976 reads
`old_index = self.get_group_item_index` — the bound method, not a call — and
immediately forces `list(self.get_subs(old_index))`, comparing every
subscribed range bound against that method object.  The embedding passes
`PyIdx.method` through the same comparisons.  When no comparison runs, the
group's position is updated, all groups (synthetic ones included) are
re-sorted by position descending with `sorted(..., reverse=True)`, and the
old-session/new-index resyncs are issued; a role that is not a group yields
the source's bare `return`, modelled as result `none`. -/
def rolePosUpdate (g : GML) (rid : Nat) (newPos : Nat) :
    Except String (GML × Option (List String) × List Effect) :=
  match getSubsE g.subs PyIdx.method with
  | .error e => .error e
  | .ok oldSessions =>
    match getRoleAsGroupIdx g.list rid with
    | none => .ok (g, none, [])
    | some gi =>
      let l1 := { g.list with groups := setPosAt g.list.groups gi newPos }
      let l2 := { l1 with
        groups := l1.groups.mergeSort (fun a b => Nat.ble b.position a.position) }
      match getGroupItemIndexE l2 (GroupID.role rid) with
      | .error e => .error e
      | .ok newIdxO =>
        match resyncE g.subs oldSessions PyIdx.method with
        | .error e => .error e
        | .ok (ids1, effs1) =>
          match resyncByItemE g.subs (pyOfOptNat newIdxO) with
          | .error e => .error e
          | .ok (ids2, effs2) =>
            .ok ({ g with list := l2 }, some (ids1 ++ ids2), effs1 ++ effs2)

/-- `_list_fill_groups`: for each member id, read its stored presence,
resolve a group (member permissions are the external `mperms`), store the
snapshot fetched from storage (`gmd` models `get_member_data_one`), and
append the id to the group's list; a `None` group subscripts `data[None]`
and raises. -/
def listFillGroupsE (gmd : Nat → Member) (mperms : Nat → Permissions)
    (l : MemberList) : List Nat → Except String MemberList
  | [] => .ok l
  | mid :: rest =>
    match List.lookup mid l.presences with
    | none => .error "KeyError: presences"
    | some pres =>
      let gidO := getGroupForMember mperms l.groups mid pres.roles pres.status
      let l1 := { l with members := aset l.members mid (gmd mid) }
      match gidO with
      | none => .error "KeyError: data None"
      | some gid =>
        match List.lookup gid l1.data with
        | none => .error "KeyError: data"
        | some mids =>
          listFillGroupsE gmd mperms
            { l1 with data := aset l1.data gid (mids ++ [mid]) } rest

/-- `role_delete(role_id)`: no-op (`None` result) on an untruthy list; else
snapshot the sessions covering the group header's current item index, drop
the group from `groups` (log-only when absent), pop `data[role_id]` and
reassign the orphans then resort (log-only `KeyError` when absent), drop the
overwrite entry if present, and resync the snapshotted sessions. -/
def roleDelete (gmd : Nat → Member) (mperms : Nat → Permissions)
    (g : GML) (rid : Nat) :
    Except String (GML × Option (List String) × List Effect) :=
  if listTruthy g.list = false then .ok (g, none, [])
  else
    match getGroupItemIndexE g.list (GroupID.role rid) with
    | .error e => .error e
    | .ok roleIdxO =>
      match (match roleIdxO with
             | some i => getSubsE g.subs (PyIdx.int i)
             | none => .ok []) with
      | .error e => .error e
      | .ok sessResync =>
        let l1 :=
          match indexByFunc (fun gr => gr.gid == GroupID.role rid) g.list.groups with
          | some gi => { g.list with groups := g.list.groups.eraseIdx gi }
          | none => g.list
        match ((match List.lookup (GroupID.role rid) l1.data with
                | some mids =>
                  match listFillGroupsE gmd mperms
                          { l1 with data := aerase l1.data (GroupID.role rid) } mids with
                  | .error e => .error e
                  | .ok l2 => sortGroupsE l2
                | none => .ok l1) : Except String MemberList) with
        | .error e => .error e
        | .ok l3 =>
          let l4 := { l3 with overwrites := aerase l3.overwrites rid }
          match resyncE g.subs sessResync (pyOfOptNat roleIdxO) with
          | .error e => .error e
          | .ok (ids, effs) => .ok ({ g with list := l4 }, some ids, effs)

/-! Concrete states used to evaluate the embedding, mirroring the spec's
end-to-end scenario 1: guild 1, channel 1 (list id `everyone`), one online
member `10`, no hoisted roles. -/

def p10 : Presence :=
  { user := { id := 10, username := "alice" }, status := "online",
    roles := [], game := none, activities := [] }

def m10 : Member := { user := { id := 10, username := "alice" }, nick := none }

def gOnline : GroupInfo :=
  { gid := GroupID.online, name := "online", position := 251,
    permissions := { read_messages := false } }

def gOffline : GroupInfo :=
  { gid := GroupID.offline, name := "offline", position := 252,
    permissions := { read_messages := false } }

def lA : MemberList :=
  { groups := [gOnline, gOffline]
    data := [(GroupID.online, [10]), (GroupID.offline, [])]
    presences := [(10, p10)]
    members := [(10, m10)]
    overwrites := [] }

def exA : GML :=
  { guild_id := 1, channel_id := 1, list := lA, subs := [("s1", [(0, 10)])] }

/-- A session-registry lookup that finds every session. -/
def fetchT : String → Bool := fun _ => true

/-- Member permissions granting `read_messages` to everyone. -/
def permsT : Nat → Permissions := fun _ => { read_messages := true }

/-- A permission mixer with no overwrites in effect. -/
def mixId : Permissions → List (Nat × Overwrite) → GroupID → Permissions :=
  fun p _ _ => p

/-- The state of `exA` with a hoisted role group `5` holding member 10. -/
def g5 : GroupInfo :=
  { gid := GroupID.role 5, name := "r5", position := 1,
    permissions := { read_messages := true } }

def lB : MemberList :=
  { groups := [g5, gOnline, gOffline]
    data := [(GroupID.role 5, [10]), (GroupID.online, []), (GroupID.offline, [])]
    presences := [(10, p10)]
    members := [(10, m10)]
    overwrites := [] }

def exB : GML :=
  { guild_id := 1, channel_id := 1, list := lB, subs := [("s1", [(0, 10)])] }

/-- The state of `exA` with a channel overwrite stored for role 7, which is
not a group of the list. -/
def exC : GML :=
  { exA with list := { lA with overwrites := [(7, 42)] } }

/-- The state of `exA` with a stored presence for user 11 who is in no
group's member-id list. -/
def p11 : Presence :=
  { user := { id := 11, username := "bob" }, status := "online",
    roles := [], game := none, activities := [] }

def exD : GML :=
  { exA with list := { lA with presences := [(10, p10), (11, p11)] } }

/-- C1: `shard_query` on the range `[0, 0]` over a list whose item sequence
is non-empty registers the range but emits `SYNC {range:[0,0], items:[]}`:
the Python slice `items[start:end]` excludes index `end`, so the SYNC never
contains the item at the inclusive upper bound — here the first item — even
though `state_is_subbed`/`resync` treat the stored range as covering it. -/
theorem c1_sync_excludes_range_end :
    (shardQueryCore fetchT exA "s1" [(0, 0)]).toOption.map (fun r => r.2.1.ops)
        = some [Operation.sync (0, 0) []]
    ∧ itemsE exA.list
        = Except.ok [Item.group "online" 1, Item.member (merge m10 p10)]
    ∧ subRanges (shardSubs "s1" exA.subs [(0, 0)]) "s1" = [(0, 10), (0, 0)] :=
  ⟨rfl, rfl, rfl⟩

/-- C2 counterexample: a truthy list whose `offline` group is empty
flattens with no `offline` group header at all — `items` skips every empty
group uniformly — refuting "always contains the offline group header". -/
theorem c2_counterexample :
    List.lookup GroupID.offline lA.data = some []
    ∧ itemsE lA = Except.ok [Item.group "online" 1, Item.member (merge m10 p10)]
    ∧ [Item.group "online" 1, Item.member (merge m10 p10)].all
        (fun it => !(it == Item.group "offline" 0)) = true :=
  ⟨rfl, rfl, by decide⟩

/-- C3: with role 5 a current group of an initialized list and a subscribed
session holding the range `(0, 10)`, `role_pos_update` raises `TypeError`
instead of resyncing: line 976 stores the bound method
`self.get_group_item_index` (the call parentheses are missing) and the
method object is compared against the range bounds. -/
theorem c3_role_pos_update_raises :
    getRoleAsGroupIdx exB.list 5 = some 0
    ∧ getGroupItemIndexE exB.list (GroupID.role 5) = Except.ok (some 0)
    ∧ rolePosUpdate exB 5 0
        = Except.error "TypeError: int and method are not orderable" :=
  ⟨rfl, rfl, rfl⟩

/-- Spec-side predicate (invariant I4, first half): the groups sequence is
sorted by `position` descending. -/
def posSortedDesc : List GroupInfo → Bool
  | [] => true
  | [_] => true
  | a :: b :: rest => Nat.ble b.position a.position && posSortedDesc (b :: rest)

/-- Spec-side predicate (invariant I4, second half): the synthetic `online`
and `offline` groups are the last two entries, in that order. -/
def syntheticsLast (gs : List GroupInfo) : Bool :=
  match gs.reverse with
  | offl :: onl :: _ => onl.gid == GroupID.online && offl.gid == GroupID.offline
  | _ => false

def isRoleGroup (gr : GroupInfo) : Bool :=
  match gr.gid with
  | GroupID.role _ => true
  | _ => false

/-- Spec-side predicate for invariant I4 as a whole: a role-group prefix
sorted by position descending, then the synthetic `online` and `offline`
groups last in that order.  (The synthetic groups are pinned to the two
highest positions yet appended last, so I4's "sorted descending" can only
refer to the role-group prefix.) -/
def specI4 (gs : List GroupInfo) : Bool :=
  syntheticsLast gs
    && posSortedDesc (gs.take (gs.length - 2))
    && (gs.take (gs.length - 2)).all isRoleGroup

/-- C4 counterexample: inserting role 5 with `position = 1` into a list with
no role groups places the new group between `online` and `offline` —
`groups.insert(role['position'], ...)` indexes the whole list — so the new
group is not within the role-group prefix and I4 is violated. -/
theorem c4_counterexample :
    listTruthy exA.list = true
    ∧ specI4 exA.list.groups = true
    ∧ (newRole mixId [] exA 5 "r5" 1 { read_messages := true }).list.groups
        = [gOnline, g5, gOffline]
    ∧ syntheticsLast [gOnline, g5, gOffline] = false
    ∧ specI4 [gOnline, g5, gOffline] = false :=
  ⟨rfl, by decide, rfl, by decide, by decide⟩

/-- C4 (amended): on an initialized list, when the mixed permissions keep
`read_messages`, `new_role` inserts the candidate group (with the mixed
permissions) at list index `role['position']` of the whole groups sequence
(clamped to the end) and allocates an empty `data` entry; nothing constrains
the insertion to the role-group prefix. -/
theorem c4_new_role_inserts_at_list_index
    (mix : Permissions → List (Nat × Overwrite) → GroupID → Permissions)
    (ovs : List (Nat × Overwrite)) (g : GML) (roleId : Nat) (roleName : String)
    (rolePos : Nat) (rolePerms : Permissions)
    (h1 : listTruthy g.list = true)
    (h2 : (mix rolePerms ovs (GroupID.role roleId)).read_messages = true) :
    (newRole mix ovs g roleId roleName rolePos rolePerms).list.groups
        = pyInsert rolePos
            { gid := GroupID.role roleId, name := roleName, position := rolePos,
              permissions := mix rolePerms ovs (GroupID.role roleId) } g.list.groups
    ∧ (newRole mix ovs g roleId roleName rolePos rolePerms).list.data
        = aset g.list.data (GroupID.role roleId) []
    ∧ (newRole mix ovs g roleId roleName rolePos rolePerms).list.overwrites = ovs := by
  unfold newRole canReadChan
  simp [h1, h2]

/-- C4 witness: the amended statement applied at the concrete input of the
counterexample. -/
theorem c4_witness :
    (newRole mixId [] exA 5 "r5" 1 { read_messages := true }).list.groups
      = pyInsert 1
          { gid := GroupID.role 5, name := "r5", position := 1,
            permissions := { read_messages := true } } exA.list.groups :=
  (c4_new_role_inserts_at_list_index mixId [] exA 5 "r5" 1
    { read_messages := true } rfl rfl).1

/-- C5 counterexample: user 99 has no entry in `presences` (and is absent
from every `data[gid]`), and `pres_update` raises `KeyError` on the very
first access `self.list.presences[user_id]` instead of returning an empty
result. -/
theorem c5_counterexample :
    lA.data.all (fun kv => !(kv.2.contains 99)) = true
    ∧ List.lookup 99 lA.presences = none
    ∧ (presUpdateE permsT fetchT exA 99
          { nick := none, roles := none, status := none }).2
        = Except.error "KeyError: presences" :=
  ⟨by decide, rfl, rfl⟩

/-- C5 (amended): for a user id that has a stored presence but is absent
from every `data[gid]` of an initialized list, `pres_update` returns the
empty result and leaves the whole list state unchanged; for a user id with
no stored presence it instead raises `KeyError` before mutating anything. -/
theorem c5_absent_member_is_noop (mperms : Nat → Permissions) (fetch : String → Bool)
    (g : GML) (uid : Nat) (patch : PresencePatch) (p : Presence)
    (h1 : listTruthy g.list = true)
    (h2 : List.lookup uid g.list.presences = some p)
    (h3 : findOldGroupGo g.list uid g.list.groups = Except.ok none) :
    (presUpdateE mperms fetch g uid patch).2 = Except.ok (g, [], []) := by
  unfold presUpdateE
  simp [h1, h2, h3]

/-- C5 witness: user 11 has a presence in `exD` but sits in no group. -/
theorem c5_witness :
    listTruthy exD.list = true
    ∧ findOldGroupGo exD.list 11 exD.list.groups = Except.ok none
    ∧ (presUpdateE permsT fetchT exD 11
          { nick := none, roles := none, status := none }).2
        = Except.ok (exD, [], []) :=
  ⟨rfl, rfl,
    c5_absent_member_is_noop permsT fetchT exD 11
      { nick := none, roles := none, status := none } p11 rfl rfl rfl⟩

/-- C6 counterexample: role 7 is not a group of `exC`'s list, yet
`role_delete(7)` — while returning `[]` — pops the cached channel overwrite
stored for role 7, so the list state is not left entirely unchanged. -/
theorem c6_counterexample :
    indexByFunc (fun gr => gr.gid == GroupID.role 7) exC.list.groups = none
    ∧ exC.list.overwrites = [(7, 42)]
    ∧ (roleDelete (fun _ => m10) permsT exC 7).toOption.map
        (fun r => (r.1.list.overwrites, r.1.list.groups, r.1.list.data, r.2.1))
      = some ([], exC.list.groups, exC.list.data, some []) :=
  ⟨rfl, rfl, rfl⟩

/-- C6 (amended): on an initialized list, `role_delete` of a role id that is
neither a group nor a `data` key returns `[]` and leaves `groups`, `data`,
`members` and `presences` unchanged, but it still removes the role's entry
from `overwrites` when one is present. -/
theorem c6_role_delete_non_group (gmd : Nat → Member) (mperms : Nat → Permissions)
    (g : GML) (rid : Nat)
    (h1 : listTruthy g.list = true)
    (h2 : indexByFunc (fun gr => gr.gid == GroupID.role rid) g.list.groups = none)
    (h3 : List.lookup (GroupID.role rid) g.list.data = none)
    (h4 : getGroupItemIndexE g.list (GroupID.role rid) = Except.ok none) :
    roleDelete gmd mperms g rid
      = Except.ok
          ({ g with list := { g.list with overwrites := aerase g.list.overwrites rid } },
           some [], []) := by
  unfold roleDelete
  simp [h1, h2, h3, h4, pyOfOptNat, resyncE, resyncGo]

/-- C6 witness: the amended statement applied at the counterexample state. -/
theorem c6_witness :
    roleDelete (fun _ => m10) permsT exC 7
      = Except.ok
          ({ exC with list := { exC.list with overwrites := aerase exC.list.overwrites 7 } },
           some [], []) :=
  c6_role_delete_non_group (fun _ => m10) permsT exC 7 rfl rfl rfl rfl

/-- C9: whenever the caller's partial presence carries a `nick` key and the
user has a stored presence, `pres_update` pops the key from the caller's
dictionary (`partial_presence.pop('nick')`), so the argument observed by the
caller afterwards has no `nick` key. -/
theorem c9_pres_update_pops_nick (mperms : Nat → Permissions) (fetch : String → Bool)
    (g : GML) (uid : Nat) (patch : PresencePatch) (p : Presence)
    (h1 : listTruthy g.list = true)
    (h2 : List.lookup uid g.list.presences = some p)
    (_h3 : patch.nick.isSome = true) :
    ((presUpdateE mperms fetch g uid patch).1).nick = none := by
  unfold presUpdateE
  simp [h1, h2]

/-- C9 witness. -/
theorem c9_witness :
    listTruthy exA.list = true
    ∧ (({ nick := some "newnick", roles := none, status := none } : PresencePatch)).nick.isSome = true
    ∧ ((presUpdateE permsT fetchT exA 10
          { nick := some "newnick", roles := none, status := none }).1).nick = none :=
  ⟨rfl, rfl,
    c9_pres_update_pops_nick permsT fetchT exA 10
      { nick := some "newnick", roles := none, status := none } p10 rfl rfl rfl⟩

theorem memberAsItem_is_member (l : MemberList) (mid : Nat) (x : Item)
    (h : memberAsItem l mid = Except.ok x) : ∀ s c, x ≠ Item.group s c := by
  unfold memberAsItem at h
  cases hm : List.lookup mid l.members with
  | none => rw [hm] at h; cases h
  | some m =>
    rw [hm] at h
    cases hp : List.lookup mid l.presences with
    | none => rw [hp] at h; cases h
    | some p =>
      rw [hp] at h
      cases h
      intro s c hx
      cases hx

theorem memberItems_no_group (l : MemberList) :
    ∀ ms xs, memberItems l ms = Except.ok xs →
      ∀ x ∈ xs, ∀ s c, x ≠ Item.group s c := by
  intro ms
  induction ms with
  | nil =>
    intro xs h x hx
    simp only [memberItems] at h
    cases h
    cases hx
  | cons mid rest ih =>
    intro xs h x hx
    simp only [memberItems] at h
    cases hm : memberAsItem l mid with
    | error e => rw [hm] at h; cases h
    | ok it =>
      rw [hm] at h
      cases hr : memberItems l rest with
      | error e => rw [hr] at h; cases h
      | ok its =>
        rw [hr] at h
        cases h
        rcases List.mem_cons.mp hx with hx1 | hx2
        · subst hx1; exact memberAsItem_is_member l mid x hm
        · exact ih its hr x hx2

theorem itemsOfGroups_no_empty_header (l : MemberList) (s0 : String) :
    ∀ gs xs, itemsOfGroups l gs = Except.ok xs →
      (∀ gr ∈ gs, strG gr.gid = s0 → List.lookup gr.gid l.data = some []) →
      ∀ c, Item.group s0 c ∉ xs := by
  intro gs
  induction gs with
  | nil =>
    intro xs h hall c
    simp only [itemsOfGroups] at h
    cases h
    simp
  | cons gr rest ih =>
    intro xs h hall c
    simp only [itemsOfGroups] at h
    cases hl : List.lookup gr.gid l.data with
    | none => rw [hl] at h; cases h
    | some mids =>
      simp only [hl] at h
      by_cases he : mids.isEmpty
      · rw [if_pos he] at h
        exact ih xs h (fun g hg hs => hall g (List.mem_cons_of_mem _ hg) hs) c
      · rw [if_neg he] at h
        cases hmi : memberItems l mids with
        | error e => rw [hmi] at h; cases h
        | ok mitems =>
          rw [hmi] at h
          cases hr : itemsOfGroups l rest with
          | error e => rw [hr] at h; cases h
          | ok restItems =>
            rw [hr] at h
            cases h
            intro hmem
            rcases List.mem_cons.mp hmem with hhead | htail
            · have hs : strG gr.gid = s0 := by
                  injection hhead with h1 h2
                  exact h1.symm
              have hempty := hall gr (List.mem_cons_self _ _) hs
              rw [hl] at hempty
              injection hempty with hmids
              rw [hmids] at he
              exact he rfl
            · rcases List.mem_append.mp htail with hm1 | hm2
              · exact memberItems_no_group l mids mitems hmi _ hm1 s0 c rfl
              · exact ih restItems hr
                  (fun g hg hs => hall g (List.mem_cons_of_mem _ hg) hs) c hm2

/-- C2 (amended): the flattened item sequence (`items`) omits the group
header of every group with an empty member list — the `offline` group
included — and an uninitialized (untruthy) list flattens to `[]`; in
particular nothing guarantees an `offline` header, and an empty guild's list
never becomes truthy, so its flattened sequence is empty rather than a lone
`offline` header. -/
theorem c2_items_omit_all_empty_groups (l : MemberList) (s0 : String) :
    (listTruthy l = false → itemsE l = Except.ok [])
    ∧ (∀ xs, itemsE l = Except.ok xs →
        (∀ gr ∈ l.groups, strG gr.gid = s0 → List.lookup gr.gid l.data = some []) →
        ∀ c, Item.group s0 c ∉ xs) := by
  constructor
  · intro h
    simp [itemsE, h]
  · intro xs h hall c
    unfold itemsE at h
    by_cases ht : listTruthy l = false
    · rw [if_pos ht] at h
      cases h
      simp
    · rw [if_neg ht] at h
      exact itemsOfGroups_no_empty_header l s0 l.groups xs h hall c

/-- C2 witness: in `lA` the `offline` group is empty and no `offline`
header occurs in the flattened items. -/
theorem c2_witness :
    itemsE lA = Except.ok [Item.group "online" 1, Item.member (merge m10 p10)]
    ∧ Item.group "offline" 0 ∉ [Item.group "online" 1, Item.member (merge m10 p10)] :=
  ⟨rfl, (c2_items_omit_all_empty_groups lA "offline").2
      [Item.group "online" 1, Item.member (merge m10 p10)] rfl (by decide) 0⟩

theorem resyncGo_all_tasks (subs : Subs) (v : PyIdx) :
    ∀ sids ids effs, resyncGo subs v sids = Except.ok (ids, effs) →
      effs.all Effect.isTask = true := by
  intro sids
  induction sids with
  | nil =>
    intro ids effs h
    simp only [resyncGo] at h
    cases h
    rfl
  | cons sid rest ih =>
    intro ids effs h
    simp only [resyncGo] at h
    cases hf : firstHit v (subRanges subs sid) with
    | error e => rw [hf] at h; cases h
    | ok o =>
      cases o with
      | none =>
        simp only [hf] at h
        exact ih ids effs h
      | some r =>
        simp only [hf] at h
        cases hr : resyncGo subs v rest with
        | error e => rw [hr] at h; cases h
        | ok pr =>
          obtain ⟨ids0, effs0⟩ := pr
          simp only [hr] at h
          injection h with h'
          have h2 : Effect.task sid r :: effs0 = effs := congrArg Prod.snd h'
          rw [← h2]
          simp only [List.all_cons, Effect.isTask, Bool.true_and]
          exact ih ids0 effs0 hr

theorem presUpdateComplexE_all_tasks (g : GML) (uid : Nat) (oldG : GroupID)
    (newG : Option GroupID) (g2 : GML) (ids : List String) (effs : List Effect)
    (h : presUpdateComplexE g uid oldG newG = Except.ok (g2, ids, effs)) :
    effs.all Effect.isTask = true := by
  unfold presUpdateComplexE at h
  cases e1 : presUpdateComplexMove g uid oldG newG with
  | error e => rw [e1] at h; cases h
  | ok mv =>
    obtain ⟨l3, oldUserIdxO, newUserIdx⟩ := mv
    simp only [e1] at h
    cases e2 : getSubsE g.subs (pyOfOptNat oldUserIdxO) with
    | error e => rw [e2] at h; cases h
    | ok oldSids =>
      simp only [e2] at h
      cases e3 : getSubsE g.subs (PyIdx.int newUserIdx) with
      | error e => rw [e3] at h; cases h
      | ok newSids =>
        simp only [e3] at h
        cases e4 : resyncE g.subs oldSids (pyOfOptNat oldUserIdxO) with
        | error e => rw [e4] at h; cases h
        | ok pr1 =>
          obtain ⟨ids1, effs1⟩ := pr1
          simp only [e4] at h
          cases e5 : resyncE g.subs newSids (PyIdx.int newUserIdx) with
          | error e => rw [e5] at h; cases h
          | ok pr2 =>
            obtain ⟨ids2, effs2⟩ := pr2
            simp only [e5] at h
            injection h with h'
            have h2 : effs1 ++ effs2 = effs := congrArg (fun x => x.2.2) h'
            rw [← h2, List.all_append, Bool.and_eq_true]
            exact ⟨resyncGo_all_tasks g.subs (pyOfOptNat oldUserIdxO) oldSids ids1 effs1 e4,
                   resyncGo_all_tasks g.subs (PyIdx.int newUserIdx) newSids ids2 effs2 e5⟩

/-- C7: whenever the partial presence carries a `nick` key, `pres_update`
on a member of an initialized list takes the complex/resync path: every
effect it produces is a background resync task, never a direct dispatch —
in particular never the simple path's `UPDATE` operation — even when the
member's resolved group is unchanged. -/
theorem c7_nick_forces_complex (mperms : Nat → Permissions) (fetch : String → Bool)
    (g : GML) (uid : Nat) (patch : PresencePatch) (p : Presence)
    (g2 : GML) (ids : List String) (effs : List Effect)
    (h1 : listTruthy g.list = true)
    (h2 : List.lookup uid g.list.presences = some p)
    (h3 : patch.nick.isSome = true)
    (h4 : (presUpdateE mperms fetch g uid patch).2 = Except.ok (g2, ids, effs)) :
    effs.all Effect.isTask = true := by
  unfold presUpdateE at h4
  simp only [h1, h2, Bool.true_eq_false, if_false] at h4
  cases hf : findOldGroupGo g.list uid g.list.groups with
  | error e => rw [hf] at h4; cases h4
  | ok og =>
    cases og with
    | none =>
      simp only [hf] at h4
      injection h4 with h'
      have h5 : ([] : List Effect) = effs := congrArg (fun x => x.2.2) h'
      rw [← h5]
      rfl
    | some pr =>
      obtain ⟨oldG, ri⟩ := pr
      simp only [hf] at h4
      by_cases hg : gidTruthy oldG = false
      · rw [if_pos hg] at h4
        injection h4 with h'
        have h5 : ([] : List Effect) = effs := congrArg (fun x => x.2.2) h'
        rw [← h5]
        rfl
      · rw [if_neg hg] at h4
        simp only [h3, Bool.not_true, Bool.and_false, Bool.false_eq_true, if_false] at h4
        exact presUpdateComplexE_all_tasks _ _ _ _ _ _ _ h4

/-- C7 witness: a nickname-only update on member 10 (whose resolved group
stays `online`) produces only resync tasks. -/
theorem c7_witness :
    listTruthy exA.list = true
    ∧ (({ nick := some "x", roles := none, status := none } : PresencePatch)).nick.isSome = true
    ∧ [Effect.task "s1" (0, 10), Effect.task "s1" (0, 10)].all Effect.isTask = true :=
  ⟨rfl, rfl,
    c7_nick_forces_complex permsT fetchT exA 10
      { nick := some "x", roles := none, status := none } p10 _ _ _ rfl rfl rfl rfl⟩

theorem shardQueryCore_shape (fetch : String → Bool) (g : GML) (sid : String)
    (ranges : List (Int × Int)) (g' : GML) (p : Payload) (d : List String)
    (e : List Effect)
    (h : shardQueryCore fetch g sid ranges = Except.ok (g', p, d, e)) :
    ∃ its gc, itemsE g.list = Except.ok its
      ∧ groupsCompleteE g.list = Except.ok gc
      ∧ p = { id := listId g, guild_id := toString g.guild_id,
              groups := gc.map (fun x => (strG x.1.gid, x.2)),
              ops := shardOps its ranges }
      ∧ g' = { g with subs := shardSubs sid g.subs ranges } := by
  unfold shardQueryCore at h
  by_cases ht : listTruthy g.list = false
  · rw [if_pos ht] at h; cases h
  · rw [if_neg ht] at h
    cases hit : itemsE g.list with
    | error e0 => rw [hit] at h; cases h
    | ok its =>
      simp only [hit] at h
      cases hgc : groupsCompleteE g.list with
      | error e0 => rw [hgc] at h; cases h
      | ok gc =>
        simp only [hgc] at h
        injection h with h'
        exact ⟨its, gc, rfl, rfl,
          (congrArg (fun x => x.2.1) h').symm, (congrArg Prod.fst h').symm⟩

/-- C8: two successive `shard_query` calls by the same session with the same
ranges and no intervening list mutation produce identical payloads — the
same `SYNC` ops (range and items) and the same `groups` field — because the
only state `shard_query` changes is the session's range set, which the
payload does not depend on. -/
theorem c8_repeat_shard_query_same_payload (fetch : String → Bool) (g : GML)
    (sid : String) (ranges : List (Int × Int))
    (g1 : GML) (p1 : Payload) (d1 : List String) (e1 : List Effect)
    (g2 : GML) (p2 : Payload) (d2 : List String) (e2 : List Effect)
    (h1 : shardQueryCore fetch g sid ranges = Except.ok (g1, p1, d1, e1))
    (h2 : shardQueryCore fetch g1 sid ranges = Except.ok (g2, p2, d2, e2)) :
    p1 = p2 := by
  obtain ⟨its, gc, hit, hgc, hp1, hg1⟩ :=
    shardQueryCore_shape fetch g sid ranges g1 p1 d1 e1 h1
  subst hg1
  obtain ⟨its2, gc2, hit2, hgc2, hp2, hg2⟩ :=
    shardQueryCore_shape fetch _ sid ranges g2 p2 d2 e2 h2
  have hits : (Except.ok its : Except String (List Item)) = Except.ok its2 :=
    hit.symm.trans hit2
  have hgcs : (Except.ok gc : Except String (List (GroupInfo × Nat))) = Except.ok gc2 :=
    hgc.symm.trans hgc2
  injection hits with hi
  injection hgcs with hc
  subst hi
  subst hc
  rw [hp1, hp2]
  rfl

def c8pay : Payload :=
  { id := "everyone", guild_id := "1", groups := [("online", 1), ("offline", 0)],
    ops := [Operation.sync (0, 3) [Item.group "online" 1, Item.member (merge m10 p10)]] }

def c8g1 : GML := { exA with subs := [("s1", [(0, 10), (0, 3)])] }

/-- C8 witness: the two concrete successive queries and the payload equality
obtained from the theorem. -/
theorem c8_witness :
    shardQueryCore fetchT exA "s1" [(0, 3)]
        = Except.ok (c8g1, c8pay, ["s1"], [Effect.dispatch ["s1"] c8pay])
    ∧ shardQueryCore fetchT c8g1 "s1" [(0, 3)]
        = Except.ok (c8g1, c8pay, ["s1"], [Effect.dispatch ["s1"] c8pay])
    ∧ c8pay = c8pay :=
  ⟨rfl, rfl,
    c8_repeat_shard_query_same_payload fetchT exA "s1" [(0, 3)]
      c8g1 c8pay ["s1"] [Effect.dispatch ["s1"] c8pay]
      c8g1 c8pay ["s1"] [Effect.dispatch ["s1"] c8pay] rfl rfl⟩

theorem pySlice_of_ge_length {α : Type} (s e : Int) (l : List α)
    (h : (l.length : Int) ≤ s) : pySlice s e l = [] := by
  have hs : ¬ s < 0 := by omega
  have h' : l.length ≤ s.toNat := by omega
  simp only [pySlice, pyClampIdx, if_neg hs, Nat.min_eq_right h', List.drop_length,
    List.take_nil]

theorem shardOps_mem (its : List Item) (s e : Int) (hse : 0 ≤ e - s) :
    ∀ ranges, (s, e) ∈ ranges →
      Operation.sync (s, e) (pySlice s e its) ∈ shardOps its ranges := by
  intro ranges
  induction ranges with
  | nil => intro h; cases h
  | cons r rest ih =>
    intro h
    obtain ⟨rs, re⟩ := r
    rcases List.mem_cons.mp h with heq | hmem
    · cases heq
      simp only [shardOps, if_neg (by omega : ¬ e - s < 0)]
      exact List.mem_cons_self _ _
    · by_cases hv : re - rs < 0
      · simpa only [shardOps, if_pos hv] using ih hmem
      · simp only [shardOps, if_neg hv]
        exact List.mem_cons_of_mem _ (ih hmem)

theorem subRanges_addRange (sid : String) (r : Int × Int) :
    ∀ subs, subRanges (addRange subs sid r) sid
      = (if (subRanges subs sid).contains r then subRanges subs sid
         else subRanges subs sid ++ [r]) := by
  intro subs
  induction subs with
  | nil => simp [addRange, subRanges, List.lookup]
  | cons kv rest ih =>
    obtain ⟨k, rs⟩ := kv
    by_cases hk : k = sid
    · subst hk
      simp [addRange, subRanges, List.lookup]
    · have hk1 : (k == sid) = false := beq_eq_false_iff_ne.mpr hk
      have hk2 : (sid == k) = false := beq_eq_false_iff_ne.mpr (Ne.symm hk)
      simp only [addRange, hk1, Bool.false_eq_true, if_false, subRanges, List.lookup, hk2]
      exact ih

theorem addRange_mem_self (subs : Subs) (sid : String) (r : Int × Int) :
    r ∈ subRanges (addRange subs sid r) sid := by
  rw [subRanges_addRange]
  by_cases hc : (subRanges subs sid).contains r
  · rw [if_pos hc]
    exact List.mem_of_elem_eq_true hc
  · rw [if_neg hc]
    exact List.mem_append.mpr (Or.inr (List.mem_cons_self _ _))

theorem addRange_preserve (subs : Subs) (sid : String) (r r' : Int × Int)
    (h : r' ∈ subRanges subs sid) : r' ∈ subRanges (addRange subs sid r) sid := by
  rw [subRanges_addRange]
  by_cases hc : (subRanges subs sid).contains r
  · rwa [if_pos hc]
  · rw [if_neg hc]
    exact List.mem_append.mpr (Or.inl h)

theorem shardSubs_preserve (sid : String) (r' : Int × Int) :
    ∀ ranges subs, r' ∈ subRanges subs sid →
      r' ∈ subRanges (shardSubs sid subs ranges) sid := by
  intro ranges
  induction ranges with
  | nil => intro subs h; simpa only [shardSubs] using h
  | cons r rest ih =>
    intro subs h
    obtain ⟨rs, re⟩ := r
    by_cases hv : re - rs < 0
    · simpa only [shardSubs, if_pos hv] using ih subs h
    · simp only [shardSubs, if_neg hv]
      exact ih _ (addRange_preserve subs sid (rs, re) r' h)

theorem shardSubs_mem (sid : String) (s e : Int) (hse : 0 ≤ e - s) :
    ∀ ranges subs, (s, e) ∈ ranges →
      (s, e) ∈ subRanges (shardSubs sid subs ranges) sid := by
  intro ranges
  induction ranges with
  | nil => intro subs h; cases h
  | cons r rest ih =>
    intro subs h
    obtain ⟨rs, re⟩ := r
    rcases List.mem_cons.mp h with heq | hmem
    · cases heq
      simp only [shardSubs, if_neg (by omega : ¬ e - s < 0)]
      exact shardSubs_preserve sid (s, e) rest _ (addRange_mem_self subs sid (s, e))
    · by_cases hv : re - rs < 0
      · simpa only [shardSubs, if_pos hv] using ih subs hmem
      · simp only [shardSubs, if_neg hv]
        exact ih _ hmem

/-- C10: `shard_query` records ranges without regard to the list length:
every range with `end - start >= 0` that appears in the call is added to the
session's range set even when `start` is at or beyond the length of the
flattened item sequence, and the `SYNC` emitted for such a range carries an
empty items list (the slice clamps to nothing). -/
theorem c10_out_of_range_sync_empty (fetch : String → Bool) (g : GML) (sid : String)
    (ranges : List (Int × Int)) (s e : Int) (its : List Item)
    (gc : List (GroupInfo × Nat))
    (h1 : listTruthy g.list = true)
    (h2 : itemsE g.list = Except.ok its)
    (h3 : groupsCompleteE g.list = Except.ok gc)
    (h4 : (s, e) ∈ ranges)
    (h5 : 0 ≤ e - s)
    (h6 : (its.length : Int) ≤ s) :
    (shardQueryCore fetch g sid ranges).toOption.map
        (fun r => ((subRanges r.1.subs sid).contains (s, e),
                   r.2.1.ops.contains (Operation.sync (s, e) [])))
      = some (true, true) := by
  unfold shardQueryCore
  simp only [h1, Bool.true_eq_false, if_false, h2, h3, Except.toOption, Option.map]
  have m1 : (s, e) ∈ subRanges (shardSubs sid g.subs ranges) sid :=
    shardSubs_mem sid s e h5 ranges g.subs h4
  have m2 : Operation.sync (s, e) [] ∈ shardOps its ranges := by
    have hx := shardOps_mem its s e h5 ranges h4
    rwa [pySlice_of_ge_length s e its h6] at hx
  simp only [List.contains]
  rw [List.elem_eq_true_of_mem m1, List.elem_eq_true_of_mem m2]

/-- C10 witness: querying the far-out-of-bounds range `(50, 60)` on `exA`
registers the range for the fresh session `s2` and syncs an empty slice. -/
theorem c10_witness :
    listTruthy exA.list = true
    ∧ (shardQueryCore fetchT exA "s2" [(50, 60)]).toOption.map
        (fun r => ((subRanges r.1.subs "s2").contains (50, 60),
                   r.2.1.ops.contains (Operation.sync (50, 60) [])))
      = some (true, true) :=
  ⟨rfl,
    c10_out_of_range_sync_empty fetchT exA "s2" [(50, 60)] 50 60 _ _
      rfl rfl rfl (by decide) (by decide) (by decide)⟩
